import Mathlib

/-!
Verification of the policy-gradient training engine in `scripts/train.py`
(hanabi self-play trainer).  Python floating-point tensors are modelled as
real numbers (scalars drawn from floats modelled as rationals where only
comparisons matter); tensors as lists or `Matrix` over `ℝ`; the external
game collaborator and the library QR factorization are modelled as
parameters satisfying their interface contracts.
-/

namespace Hanabi

/-! ## Activation Unit (lines 19-39 of train.py) -/

/-- The sigmoid function, `torch.sigmoid`. -/
noncomputable def sigmoid (x : ℝ) : ℝ := 1 / (1 + Real.exp (-x))

/-- Forward pass of the fused activation: `x * torch.sigmoid(x) * 1.6768`. -/
noncomputable def swish_jit_fwd (x : ℝ) : ℝ := x * sigmoid x * 1.6768

/-- Backward pass: `grad_output * (x_sigmoid * (1 + x * (1 - x_sigmoid))) * 1.6768`
with `x_sigmoid = torch.sigmoid(x)`. -/
noncomputable def swish_jit_bwd (x grad_output : ℝ) : ℝ :=
  grad_output * (sigmoid x * (1 + x * (1 - sigmoid x))) * 1.6768

/-! ## Credit assignment: discounted returns (lines 148-152)

The Python loop iterates over `rewards[::-1]` maintaining the accumulator
`R` (initially 0) and inserting each new value at the front of `returns`:

    R = 0; returns = []
    for r in rewards[::-1]:
        R = r + gamma * R
        returns.insert(0, R)
-/

/-- One pass of the Python loop body over the (already reversed) reward list,
carrying the accumulator `R` and the `returns` list built so far. -/
def returnsLoop (gamma : ℝ) : List ℝ → ℝ → List ℝ → ℝ × List ℝ
  | [], R, acc => (R, acc)
  | r :: rest, R, acc => returnsLoop gamma rest (r + gamma * R) ((r + gamma * R) :: acc)

/-- The discounted returns of a reward sequence, exactly as computed by the
loop in `play_and_train`: fold over the reversed rewards, prepending. -/
def computeReturns (gamma : ℝ) (rewards : List ℝ) : List ℝ :=
  (returnsLoop gamma rewards.reverse 0 []).2

theorem returnsLoop_append (gamma : ℝ) (l : List ℝ) (r R : ℝ) (acc : List ℝ) :
    returnsLoop gamma (l ++ [r]) R acc =
      ((r + gamma * (returnsLoop gamma l R acc).1),
        (r + gamma * (returnsLoop gamma l R acc).1) :: (returnsLoop gamma l R acc).2) := by
  induction l generalizing R acc with
  | nil => rfl
  | cons x xs ih =>
    simp only [List.cons_append, returnsLoop]
    exact ih _ _

theorem returnsLoop_fst (gamma : ℝ) (l : List ℝ) (R : ℝ) (acc : List ℝ) (h : l ≠ []) :
    (returnsLoop gamma l R acc).1 = (returnsLoop gamma l R acc).2.headD 0 := by
  induction l generalizing R acc with
  | nil => exact absurd rfl h
  | cons x xs ih =>
    cases xs with
    | nil => rfl
    | cons y ys => exact ih _ _ (List.cons_ne_nil y ys)

/-- `computeReturns` unrolled one step: the return at the head is the head
reward plus `gamma` times the next return (0 when there is none). -/
theorem computeReturns_cons (gamma : ℝ) (r : ℝ) (rs : List ℝ) :
    computeReturns gamma (r :: rs) =
      (r + gamma * (computeReturns gamma rs).headD 0) :: computeReturns gamma rs := by
  unfold computeReturns
  rw [List.reverse_cons, returnsLoop_append]
  cases rs with
  | nil => rfl
  | cons y ys => rw [returnsLoop_fst _ _ _ _ (by simp)]

theorem computeReturns_length (gamma : ℝ) (rs : List ℝ) :
    (computeReturns gamma rs).length = rs.length := by
  induction rs with
  | nil => rfl
  | cons r rs ih => rw [computeReturns_cons, List.length_cons, List.length_cons, ih]

theorem computeReturns_nil (gamma : ℝ) : computeReturns gamma [] = [] := rfl

theorem headD_eq_getD_zero (l : List ℝ) : l.headD 0 = l.getD 0 0 := by
  cases l <;> rfl

/-- C1: for every real input `x`, the Activation Unit forward output is
`x * sigmoid(x) * c` with `c = 1.6768`, and for every upstream gradient
`g` the backward output is `g * sigmoid(x) * (1 + x * (1 - sigmoid(x))) * c`,
where `x` is the saved pre-activation input. -/
theorem activation_unit_forward_backward (x g : ℝ) :
    swish_jit_fwd x = x * sigmoid x * 1.6768 ∧
    swish_jit_bwd x g = g * sigmoid x * (1 + x * (1 - sigmoid x)) * 1.6768 := by
  refine ⟨rfl, ?_⟩
  unfold swish_jit_bwd
  ring

/-- C2: the returns computed by the backward loop of `play_and_train`
satisfy the recurrence `R_t = r_t + gamma * R_(t+1)` (with the return past
the final turn equal to 0), and on the reward sequence `[1, 1, 1]` with
`gamma = 0.99` the raw returns are `[2.9701, 1.99, 1.0]`. -/
theorem discounted_returns_recurrence_and_example (gamma : ℝ) (rewards : List ℝ)
    (t : ℕ) (ht : t < rewards.length) :
    ((computeReturns gamma rewards).getD t 0 =
      rewards.getD t 0 + gamma * ((computeReturns gamma rewards).getD (t + 1) 0)) ∧
    computeReturns (0.99 : ℝ) [1, 1, 1] = [2.9701, 1.99, 1.0] := by
  constructor
  · induction rewards generalizing t with
    | nil => exact absurd ht (by simp)
    | cons r rs ih =>
      rw [computeReturns_cons]
      cases t with
      | zero =>
        simp only [List.getD_cons_zero, List.getD_cons_succ]
        rw [headD_eq_getD_zero]
      | succ t =>
        simp only [List.getD_cons_succ]
        exact ih t (by simpa using Nat.lt_of_succ_lt_succ ht)
  · rw [show [(1:ℝ), 1, 1] = 1 :: 1 :: 1 :: [] from rfl]
    rw [computeReturns_cons, computeReturns_cons, computeReturns_cons, computeReturns_nil]
    norm_num

/-- Witness for C2 at `gamma = 0.99`, `rewards = [1, 1, 1]`, `t = 0`. -/
theorem discounted_returns_recurrence_and_example_witness :
    (0 < ([(1:ℝ), 1, 1]).length) ∧
    (((computeReturns 0.99 [(1:ℝ), 1, 1]).getD 0 0 =
      ([(1:ℝ), 1, 1]).getD 0 0 + 0.99 * ((computeReturns 0.99 [(1:ℝ), 1, 1]).getD 1 0)) ∧
    computeReturns (0.99 : ℝ) [1, 1, 1] = [2.9701, 1.99, 1.0]) :=
  ⟨by norm_num, discounted_returns_recurrence_and_example 0.99 [1, 1, 1] 0 (by norm_num)⟩

/-! ## Batch loss aggregation (lines 83-160)

An `Episode` records what one rollout hands to the training step: the
per-turn accumulated log-probabilities, the per-turn rewards (Python
integers: score deltas and the -1 penalty), and the final `game.score`. -/

structure Episode where
  logProbs : List ℝ
  rewards : List ℤ
  finalScore : ℤ

/-- Mean of a tensor viewed as a list, `returns.mean()`. -/
noncomputable def listMean (xs : List ℝ) : ℝ := xs.sum / xs.length

/-- Standard deviation `returns.std()`; torch defaults to the Bessel-corrected
sample standard deviation, dividing by `n - 1`. -/
noncomputable def listStd (xs : List ℝ) : ℝ :=
  Real.sqrt ((xs.map (fun x => (x - listMean xs) ^ 2)).sum / ((xs.length : ℝ) - 1))

/-- Line 154: `returns = (returns - returns.mean()) / (returns.std() + 1e-5)`,
two elementwise tensor operations. -/
noncomputable def normalizeReturns (xs : List ℝ) : List ℝ :=
  (xs.map (fun x => x - listMean xs)).map (fun x => x / (listStd xs + 1e-5))

/-- Lines 148-156: one episode's contribution to `total_loss`, namely
`sum over zip(log_probs, returns) of -(log_prob * R)` with `returns` the
normalized discounted returns of the episode's rewards. -/
noncomputable def episodeLoss (gamma : ℝ) (ep : Episode) : ℝ :=
  (((ep.logProbs.zip
      (normalizeReturns (computeReturns gamma (ep.rewards.map fun r => (r : ℝ))))).map
    (fun p => -(p.1 * p.2))).sum)

/-- The mutable state of the batch accumulation loop in `play_and_train`:
`total_loss`, `turns` and `scores`. -/
structure BatchState where
  totalLoss : ℝ
  turns : ℕ
  scores : List ℤ

/-- Lines 146-158: an episode is folded into the batch state only when its
trajectory has at least 3 turns; otherwise the state is untouched. -/
noncomputable def episodeStep (gamma : ℝ) (st : BatchState) (ep : Episode) : BatchState :=
  if 3 ≤ ep.logProbs.length then
    { totalLoss := st.totalLoss + episodeLoss gamma ep,
      turns := st.turns + ep.logProbs.length,
      scores := st.scores ++ [ep.finalScore] }
  else st

/-- Lines 84-86: `total_loss = 0`, `turns = 0`, `scores = []`. -/
def initialBatchState : BatchState := ⟨0, 0, []⟩

/-- The batch accumulation over a list of rolled-out episodes. -/
noncomputable def processEpisodes (gamma : ℝ) (eps : List Episode) : BatchState :=
  eps.foldl (episodeStep gamma) initialBatchState

/-- Line 160: `total_loss /= turns` — the loss handed to the optimizer. -/
noncomputable def batchLoss (gamma : ℝ) (eps : List Episode) : ℝ :=
  (processEpisodes gamma eps).totalLoss / ((processEpisodes gamma eps).turns : ℝ)

theorem episodeStep_skip (gamma : ℝ) (st : BatchState) (ep : Episode)
    (h : ¬ 3 ≤ ep.logProbs.length) : episodeStep gamma st ep = st := by
  unfold episodeStep
  rw [if_neg h]

theorem processEpisodes_from (gamma : ℝ) (eps : List Episode) (st : BatchState) :
    eps.foldl (episodeStep gamma) st =
      { totalLoss := st.totalLoss +
          ((eps.filter fun ep => decide (3 ≤ ep.logProbs.length)).map
            (episodeLoss gamma)).sum,
        turns := st.turns +
          ((eps.filter fun ep => decide (3 ≤ ep.logProbs.length)).map
            (fun ep => ep.logProbs.length)).sum,
        scores := st.scores ++
          (eps.filter fun ep => decide (3 ≤ ep.logProbs.length)).map
            (fun ep => ep.finalScore) } := by
  induction eps generalizing st with
  | nil => simp
  | cons ep eps ih =>
    by_cases h : 3 ≤ ep.logProbs.length
    · rw [List.foldl_cons, ih]
      simp only [episodeStep, if_pos h]
      simp [List.filter_cons, decide_eq_true h, add_assoc]
    · rw [List.foldl_cons, episodeStep_skip gamma st ep h, ih]
      simp [List.filter_cons, decide_eq_false h]

/-- Lines 88-159 as a fueled loop: `while turns < args.bs`, roll out the
next episode (`stream k`) and fold it into the batch state. -/
noncomputable def playAndTrainLoop (gamma : ℝ) (bs : ℕ) (stream : ℕ → Episode) :
    ℕ → ℕ → BatchState → BatchState × ℕ
  | 0, k, st => (st, k)
  | fuel + 1, k, st =>
    if st.turns < bs then
      playAndTrainLoop gamma bs stream fuel (k + 1) (episodeStep gamma st (stream k))
    else (st, k)

theorem sum_map_div (xs : List ℝ) (f : ℝ → ℝ) (c : ℝ) :
    (xs.map fun x => f x / c).sum = (xs.map f).sum / c := by
  induction xs with
  | nil => simp
  | cons x xs ih => simp [ih, add_div]

theorem sum_map_sub_const (xs : List ℝ) (c : ℝ) :
    (xs.map fun x => x - c).sum = xs.sum - (xs.length : ℝ) * c := by
  induction xs with
  | nil => simp
  | cons x xs ih =>
    simp only [List.map_cons, List.sum_cons, ih, List.length_cons]
    push_cast
    ring

theorem sum_centered_eq_zero (xs : List ℝ) (h : xs ≠ []) :
    (xs.map fun x => x - listMean xs).sum = 0 := by
  have hl : xs.length ≠ 0 := fun hl => h (List.length_eq_zero.mp hl)
  have hn : (xs.length : ℝ) ≠ 0 := Nat.cast_ne_zero.mpr hl
  rw [sum_map_sub_const, listMean, mul_div_cancel₀ _ hn, sub_self]

/-- C4: within a batch (whose episodes are the retained ones, each with at
least 3 turns) every episode's return sequence is normalized elementwise as
`(R - mean) / (std + 1e-5)` with epsilon `1e-5`, the normalized sequence has
zero mean, the per-episode contributions `sum of -(log_prob * R)` are summed
across episodes, and the total is divided by the total number of turns of
the batch — producing the loss handed to the optimizer step. -/
theorem batch_loss_aggregation (gamma : ℝ) (eps : List Episode)
    (hall : ∀ ep ∈ eps, 3 ≤ ep.logProbs.length) :
    (∀ xs : List ℝ, normalizeReturns xs =
      xs.map fun x => (x - listMean xs) / (listStd xs + 1e-5)) ∧
    (∀ xs : List ℝ, xs ≠ [] → (normalizeReturns xs).sum = 0) ∧
    batchLoss gamma eps =
      (eps.map (episodeLoss gamma)).sum /
        (((eps.map fun ep => ep.logProbs.length).sum : ℕ) : ℝ) := by
  have hfilter : eps.filter (fun ep => decide (3 ≤ ep.logProbs.length)) = eps :=
    List.filter_eq_self.mpr fun a ha => decide_eq_true (hall a ha)
  refine ⟨?_, ?_, ?_⟩
  · intro xs
    unfold normalizeReturns
    rw [List.map_map]
    rfl
  · intro xs h
    unfold normalizeReturns
    rw [sum_map_div]
    simp only [List.map_id']
    rw [sum_centered_eq_zero xs h, zero_div]
  · unfold batchLoss processEpisodes
    rw [processEpisodes_from, hfilter]
    simp [initialBatchState]

/-- Witness for C4: a singleton batch with one 3-turn episode. -/
theorem batch_loss_aggregation_witness :
    (∀ ep ∈ [(⟨[0, 0, 0], [1, 1, 1], 3⟩ : Episode)], 3 ≤ ep.logProbs.length) ∧
    ((∀ xs : List ℝ, normalizeReturns xs =
      xs.map fun x => (x - listMean xs) / (listStd xs + 1e-5)) ∧
    (∀ xs : List ℝ, xs ≠ [] → (normalizeReturns xs).sum = 0) ∧
    batchLoss 0.99 [(⟨[0, 0, 0], [1, 1, 1], 3⟩ : Episode)] =
      ([(⟨[0, 0, 0], [1, 1, 1], 3⟩ : Episode)].map (episodeLoss 0.99)).sum /
        ((([(⟨[0, 0, 0], [1, 1, 1], 3⟩ : Episode)].map
          fun ep => ep.logProbs.length).sum : ℕ) : ℝ)) := by
  refine ⟨?_, batch_loss_aggregation 0.99 _ ?_⟩ <;>
  · intro ep hep
    rw [List.mem_singleton] at hep
    subst hep
    simp

/-- C9: an episode whose trajectory has fewer than 3 (log-probability,
reward) pairs leaves the whole batch state — `total_loss`, the `turns`
counter (the one compared against `args.bs` and used as the final divisor),
and the `scores` list feeding the ScoreHistory — unchanged, and the batch
loop just moves on to the next episode. -/
theorem short_episode_contributes_nothing (gamma : ℝ) (bs fuel k : ℕ)
    (stream : ℕ → Episode) (st : BatchState) (ep : Episode)
    (h : ep.logProbs.length < 3) :
    episodeStep gamma st ep = st ∧
    (stream k = ep → st.turns < bs →
      playAndTrainLoop gamma bs stream (fuel + 1) k st =
        playAndTrainLoop gamma bs stream fuel (k + 1) st) := by
  have hskip : episodeStep gamma st ep = st := episodeStep_skip gamma st ep (by omega)
  refine ⟨hskip, fun hsk hlt => ?_⟩
  simp only [playAndTrainLoop]
  rw [if_pos hlt, hsk, hskip]

/-- Witness for C9: a 2-turn episode at the head of the stream. -/
theorem short_episode_contributes_nothing_witness :
    ((⟨[0, 0], [1, 1], 5⟩ : Episode).logProbs.length < 3) ∧
    (episodeStep 0.99 initialBatchState (⟨[0, 0], [1, 1], 5⟩ : Episode) =
        initialBatchState ∧
    ((fun _ => (⟨[0, 0], [1, 1], 5⟩ : Episode)) 0 = (⟨[0, 0], [1, 1], 5⟩ : Episode) →
      initialBatchState.turns < 10 →
      playAndTrainLoop 0.99 10 (fun _ => (⟨[0, 0], [1, 1], 5⟩ : Episode)) (0 + 1) 0
          initialBatchState =
        playAndTrainLoop 0.99 10 (fun _ => (⟨[0, 0], [1, 1], 5⟩ : Episode)) 0 (0 + 1)
          initialBatchState)) :=
  ⟨by simp, short_episode_contributes_nothing 0.99 10 0 0
    (fun _ => (⟨[0, 0], [1, 1], 5⟩ : Episode)) initialBatchState
    (⟨[0, 0], [1, 1], 5⟩ : Episode) (by simp)⟩

/-! ## Parameter Initializer (lines 47-80)

`orthogonal_` draws a standard-normal matrix of shape `(rows, cols)` with
`cols = tensor[0].numel()`, walks the rows in blocks `flattened[i:i+cols]`
(so a block has `b = min(cols, rows - i)` rows), QR-factorizes each block's
transpose (`torch.qr`, a library call modelled by its contract: `q` with
orthonormal columns, `r` upper triangular with `block.t() = q * r`),
applies the sign correction `q *= torch.diag(r, 0).sign()`, transposes `q`
in place and writes it back; finally the whole tensor is scaled by `gain`.
-/

/-- `torch.sign` on a real scalar. -/
noncomputable def torchSign (x : ℝ) : ℝ := if x < 0 then -1 else if x = 0 then 0 else 1

/-- Lines 60-63 for one row block: given the factors `q` (shape
`(cols, b)`) and `r` (shape `(b, b)`) returned by `torch.qr` on the block's
transpose, scale column `j` of `q` by `sign(r[j,j])` and transpose. -/
noncomputable def orthoBlock {b cols : ℕ} (q : Matrix (Fin cols) (Fin b) ℝ)
    (r : Matrix (Fin b) (Fin b) ℝ) : Matrix (Fin b) (Fin cols) ℝ :=
  Matrix.transpose (fun i j => q i j * torchSign (r j j))

/-- Line 69: the final `tensor.mul_(gain)` restricted to one block. -/
noncomputable def orthoBlockScaled {b cols : ℕ} (gain : ℝ)
    (q : Matrix (Fin cols) (Fin b) ℝ) (r : Matrix (Fin b) (Fin b) ℝ) :
    Matrix (Fin b) (Fin cols) ℝ :=
  gain • orthoBlock q r

/-- An `nn.Linear` layer as built by `linear` (lines 73-80): the weight is
re-initialized by `orthogonal_` (its already-computed value is passed as
`w`) and the bias is zeroed by `nn.init.zeros_`. -/
structure LinearLayer (inF outF : ℕ) where
  weight : Matrix (Fin outF) (Fin inF) ℝ
  bias : Fin outF → ℝ

def linear (inF outF : ℕ) (w : Matrix (Fin outF) (Fin inF) ℝ) : LinearLayer inF outF :=
  ⟨w, fun _ => 0⟩

/-- A torch tensor reduced to what `orthogonal_`'s guard observes: its
shape (and flattened data, for stating that a failed call mutates
nothing). -/
structure PyTensor where
  shape : List ℕ
  data : List ℝ

/-- `tensor.ndimension()`. -/
def ndimension (t : PyTensor) : ℕ := t.shape.length

/-- Lines 47-70 at the tensor level: the dimension guard raises
`ValueError` before anything is touched; otherwise the block-QR rewrite and
gain scaling (`transform`, realized blockwise by `orthoBlockScaled`) run
and never raise.  The second component is the tensor state afterwards. -/
def orthogonalRun (transform : PyTensor → PyTensor) (t : PyTensor) :
    Except String PyTensor × PyTensor :=
  if ndimension t < 2 then
    (Except.error "Only tensors with 2 or more dimensions are supported", t)
  else (Except.ok (transform t), transform t)

theorem torchSign_mul_self (x : ℝ) (hx : x ≠ 0) : torchSign x * torchSign x = 1 := by
  unfold torchSign
  rcases lt_trichotomy x 0 with h | h | h
  · rw [if_pos h]; norm_num
  · exact absurd h hx
  · rw [if_neg (not_lt.mpr h.le), if_neg hx]; norm_num

/-- C6: each row block of the initializer output — `q` sign-corrected,
transposed and scaled by `gain` — has orthonormal rows up to the gain: the
dot product of rows `i` and `j` is `gain ^ 2` when `i = j` and `0`
otherwise (given the QR contract and a non-degenerate `r` diagonal); and
every bias produced by the `linear` constructor is exactly zero. -/
theorem initializer_blocks_orthonormal (b cols : ℕ) (gain : ℝ)
    (q : Matrix (Fin cols) (Fin b) ℝ) (r : Matrix (Fin b) (Fin b) ℝ)
    (hq : q.transpose * q = 1) (hr : ∀ j, r j j ≠ 0) :
    (∀ i j : Fin b,
      (orthoBlockScaled gain q r * (orthoBlockScaled gain q r).transpose) i j =
        if i = j then gain ^ 2 else 0) ∧
    (∀ (inF outF : ℕ) (w : Matrix (Fin outF) (Fin inF) ℝ) (i : Fin outF),
      (linear inF outF w).bias i = 0) := by
  constructor
  · intro i j
    have hentry : ∀ i j : Fin b, (∑ k, q k i * q k j) = if i = j then (1:ℝ) else 0 := by
      intro i j
      have h1 : (q.transpose * q) i j = (1 : Matrix (Fin b) (Fin b) ℝ) i j := by rw [hq]
      rw [Matrix.mul_apply, Matrix.one_apply] at h1
      simpa [Matrix.transpose_apply] using h1
    rw [Matrix.mul_apply]
    have hterm : ∀ k : Fin cols,
        (orthoBlockScaled gain q r) i k * (orthoBlockScaled gain q r).transpose k j =
          gain ^ 2 * (torchSign (r i i) * torchSign (r j j)) * (q k i * q k j) := by
      intro k
      simp only [orthoBlockScaled, orthoBlock, Matrix.smul_apply, Matrix.transpose_apply,
        smul_eq_mul]
      ring
    rw [Finset.sum_congr rfl fun k _ => hterm k, ← Finset.mul_sum, hentry]
    by_cases hij : i = j
    · subst hij
      rw [if_pos rfl, if_pos rfl, mul_one, torchSign_mul_self _ (hr i), mul_one]
    · rw [if_neg hij, if_neg hij, mul_zero]
  · intro inF outF w i
    rfl

/-- Witness for C6 at `b = cols = 1`, `q = r = 1`, `gain = 2`. -/
theorem initializer_blocks_orthonormal_witness :
    ((1 : Matrix (Fin 1) (Fin 1) ℝ).transpose * 1 = 1) ∧
    (∀ j : Fin 1, (1 : Matrix (Fin 1) (Fin 1) ℝ) j j ≠ 0) ∧
    ((∀ i j : Fin 1,
      (orthoBlockScaled 2 (1 : Matrix (Fin 1) (Fin 1) ℝ) 1 *
          (orthoBlockScaled 2 (1 : Matrix (Fin 1) (Fin 1) ℝ) 1).transpose) i j =
        if i = j then (2:ℝ) ^ 2 else 0) ∧
    (∀ (inF outF : ℕ) (w : Matrix (Fin outF) (Fin inF) ℝ) (i : Fin outF),
      (linear inF outF w).bias i = 0)) := by
  have hq : (1 : Matrix (Fin 1) (Fin 1) ℝ).transpose * 1 = 1 := by simp
  have hr : ∀ j : Fin 1, (1 : Matrix (Fin 1) (Fin 1) ℝ) j j ≠ 0 := by
    intro j
    simp [Matrix.one_apply]
  exact ⟨hq, hr, initializer_blocks_orthonormal 1 1 2 1 1 hq hr⟩

/-- C8: `orthogonal_` raises its `ValueError` exactly when the input tensor
has fewer than 2 dimensions, and in that case the tensor is left
unmodified (the guard runs before any write). -/
theorem initializer_error_iff_sub_2d (transform : PyTensor → PyTensor) (t : PyTensor) :
    ((orthogonalRun transform t).1.isOk = false ↔ ndimension t < 2) ∧
    (ndimension t < 2 → (orthogonalRun transform t).2 = t) := by
  unfold orthogonalRun
  by_cases h : ndimension t < 2
  · rw [if_pos h]
    exact ⟨⟨fun _ => h, fun _ => rfl⟩, fun _ => rfl⟩
  · rw [if_neg h]
    exact ⟨⟨fun hc => by simp [Except.isOk, Except.toBool] at hc, fun hc => absurd hc h⟩,
      fun hc => absurd hc h⟩

/-- Witness for C8: a 1-dimensional tensor of 5 entries. -/
theorem initializer_error_iff_sub_2d_witness :
    (((orthogonalRun id ⟨[5], [0, 0, 0, 0, 0]⟩).1.isOk = false ↔
      ndimension ⟨[5], [0, 0, 0, 0, 0]⟩ < 2) ∧
    (orthogonalRun id ⟨[5], [0, 0, 0, 0, 0]⟩).2 = ⟨[5], [0, 0, 0, 0, 0]⟩) :=
  ⟨(initializer_error_iff_sub_2d id ⟨[5], [0, 0, 0, 0, 0]⟩).1,
    (initializer_error_iff_sub_2d id ⟨[5], [0, 0, 0, 0, 0]⟩).2 (by decide)⟩

/-! ## Checkpointing (`main`, lines 229-240)

`main` first writes the args record (`torch.save(args, args.pickle)`,
line 230) and enters the loop with `new = True`.  Each checkpoint attempt
re-opens `args.pickle` with mode `'wb'` — truncating whatever is there —
then writes the args record and the result record; only after both writes
does `new` become `False`.  On any exception, the file is removed iff
`new`, and the exception is re-raised.  A failing attempt is modelled by
the number `k` of records it managed to write after the truncation. -/

inductive ChkRecord where
  | argsRec : ChkRecord
  | resRec : ℕ → ChkRecord
deriving DecidableEq

inductive SaveOutcome where
  | ok : SaveOutcome
  | failAfter : ℕ → SaveOutcome
deriving DecidableEq

/-- The two records a complete checkpoint of loop iteration `i` writes. -/
def fullSave (i : ℕ) : List ChkRecord := [ChkRecord.argsRec, ChkRecord.resRec i]

/-- The `for res in execute(args)` loop with its `except` clause: returns
the final file content at `args.pickle` (none = no file) and whether an
exception escaped `main`. -/
def runSaveLoop : List SaveOutcome → ℕ → Bool → Option (List ChkRecord) →
    Option (List ChkRecord) × Bool
  | [], _, _, file => (file, false)
  | SaveOutcome.ok :: rest, i, _, _ => runSaveLoop rest (i + 1) false (some (fullSave i))
  | SaveOutcome.failAfter k :: _, i, new, _ =>
    (if new then none else some ((fullSave i).take k), true)

/-- `main` after argument parsing: the pre-loop save has put the args
record at the path, `new = True`, checkpoint attempts numbered from 1. -/
def runMain (outcomes : List SaveOutcome) : Option (List ChkRecord) × Bool :=
  runSaveLoop outcomes 1 true (some [ChkRecord.argsRec])

/-- Counterexample to C5: the second checkpoint attempt fails right after
the `open(..., 'wb')` truncation (`failAfter 0`) following one successful
checkpoint.  The error does propagate, but the file at the path now holds
the empty partial write — the previously saved checkpoint `fullSave 1` has
been destroyed, so it is not "left untouched". -/
theorem checkpoint_later_failure_clobbers_file :
    runMain [SaveOutcome.ok, SaveOutcome.failAfter 0] = (some [], true) ∧
    (runMain [SaveOutcome.ok, SaveOutcome.failAfter 0]).1 ≠ some (fullSave 1) := by
  decide

theorem runSaveLoop_ok_run (m : ℕ) : ∀ (i k : ℕ) (rest : List SaveOutcome)
    (file : Option (List ChkRecord)),
    runSaveLoop (List.replicate m SaveOutcome.ok ++ SaveOutcome.failAfter k :: rest)
        i false file =
      (some ((fullSave (i + m)).take k), true) := by
  induction m with
  | zero =>
    intro i k rest file
    simp [runSaveLoop]
  | succ m ih =>
    intro i k rest file
    rw [List.replicate_succ, List.cons_append]
    show runSaveLoop (List.replicate m SaveOutcome.ok ++ SaveOutcome.failAfter k :: rest)
        (i + 1) false (some (fullSave i)) = _
    rw [ih]
    have : i + 1 + m = i + (m + 1) := by omega
    rw [this]

/-- C5 amended: a checkpoint failure before any success deletes the file
(nothing remains at the path) and re-raises; a failure after `n ≥ 1`
successful checkpoints also propagates the error and deletes nothing, but
the file then holds the truncated partial new write `(fullSave (n+1)).take k`
— the previous checkpoint is overwritten, not left untouched. -/
theorem checkpoint_failure_behaviour (n k : ℕ) (rest : List SaveOutcome) (hn : 1 ≤ n) :
    (∀ (k' : ℕ) (rest' : List SaveOutcome),
      runMain (SaveOutcome.failAfter k' :: rest') = (none, true)) ∧
    runMain (List.replicate n SaveOutcome.ok ++ SaveOutcome.failAfter k :: rest) =
      (some ((fullSave (n + 1)).take k), true) := by
  constructor
  · intro k' rest'
    rfl
  · cases n with
    | zero => omega
    | succ m =>
      unfold runMain
      rw [List.replicate_succ, List.cons_append]
      show runSaveLoop
          (List.replicate m SaveOutcome.ok ++ SaveOutcome.failAfter k :: rest)
          2 false (some (fullSave 1)) = _
      rw [runSaveLoop_ok_run]
      have : 2 + m = m + 1 + 1 := by omega
      rw [this]

/-- Witness for C5 (amended) at `n = 1`, `k = 1`. -/
theorem checkpoint_failure_behaviour_witness :
    (1 ≤ 1) ∧
    ((∀ (k' : ℕ) (rest' : List SaveOutcome),
      runMain (SaveOutcome.failAfter k' :: rest') = (none, true)) ∧
    runMain (List.replicate 1 SaveOutcome.ok ++ SaveOutcome.failAfter 1 :: []) =
      (some ((fullSave (1 + 1)).take 1), true)) :=
  ⟨le_refl 1, checkpoint_failure_behaviour 1 1 [] (le_refl 1)⟩

/-! ## ScoreHistory (`execute`, lines 181-195) -/

/-- Line 181: without a restore path, `scores = [0]`. -/
def initialScores : List ℤ := [0]

/-- Lines 193-195: each batch extends `scores` with the batch's
`new_scores` returned by `play_and_train`. -/
def scoresAfter (batches : List (List ℤ)) : List ℤ :=
  batches.foldl (fun acc b => acc ++ b) initialScores

theorem foldl_append_eq (batches : List (List ℤ)) : ∀ acc : List ℤ,
    batches.foldl (fun acc b => acc ++ b) acc = acc ++ batches.flatten := by
  induction batches with
  | nil => intro acc; simp
  | cons b bs ih => intro acc; simp [ih]

/-- Counterexample to C7: at startup without a restore path the history is
`[0]`, not empty — it starts with a placeholder entry no completed episode
produced; moreover a completed 2-turn episode appends no entry at all. -/
theorem score_history_not_initially_empty :
    initialScores ≠ ([] : List ℤ) ∧
    (processEpisodes 0.99 [(⟨[0, 0], [1, 1], 5⟩ : Episode)]).scores = [] := by
  constructor
  · decide
  · show (episodeStep 0.99 initialBatchState (⟨[0, 0], [1, 1], 5⟩ : Episode)).scores = []
    rw [episodeStep_skip 0.99 initialBatchState _ (by simp)]
    rfl

/-- C7 amended: the ScoreHistory starts as the one-element placeholder
list `[0]` (without a restore path); each batch appends, in completion
order, one final score per retained episode (those with at least 3 turns);
the history is append-only — processing a further batch only appends to the
end, never prunes or reorders. -/
theorem score_history_append_only :
    initialScores = [0] ∧
    (∀ batches : List (List ℤ),
      scoresAfter batches = initialScores ++ batches.flatten) ∧
    (∀ (batches : List (List ℤ)) (b : List ℤ),
      scoresAfter (batches ++ [b]) = scoresAfter batches ++ b) ∧
    (∀ (gamma : ℝ) (eps : List Episode),
      (processEpisodes gamma eps).scores =
        (eps.filter fun ep => decide (3 ≤ ep.logProbs.length)).map
          (fun ep => ep.finalScore)) := by
  refine ⟨rfl, ?_, ?_, ?_⟩
  · intro batches
    exact foldl_append_eq batches initialScores
  · intro batches b
    unfold scoresAfter
    rw [List.foldl_append]
    rfl
  · intro gamma eps
    unfold processEpisodes
    rw [processEpisodes_from]
    simp [initialBatchState]

/-! ## Episode Rollout (lines 88-144)

The external game collaborator (`from hanabi import Game`) is modelled as
an explicit state machine over a state type `σ` exposing exactly the
interface `play_and_train` consumes.  Randomness is modelled by oracles:
`rng pos` is the value of the `torch.rand(())` coin at the `pos`-th
`sample` call of the episode, and `draw pos logits` the index the
categorical distribution with the given logits returns there (reduced
modulo the slice length, the distribution's support). -/

/-- A clue's information argument: `game.clue(target, info)` receives the
number `info` when `info < 5`, else the color character `"rgbyp"[info-5]`. -/
inductive ClueInfo where
  | num : ℕ → ClueInfo
  | color : Char → ClueInfo
deriving DecidableEq

/-- The game collaborator interface consumed by the rollout. -/
structure GameApi (σ : Type) where
  encode : σ → List ℝ
  play : σ → ℕ → σ × Option Unit
  discard : σ → ℕ → σ × Option Unit
  clue : σ → ℕ → ClueInfo → σ × Option Unit
  score : σ → ℤ
  gameover : σ → Bool

/-- The random sources feeding the `sample` closure: the exploration rate
`args.randmove`, the `torch.rand(())` stream, and the categorical draws. -/
structure SampleCtx where
  randmove : ℚ
  rng : ℕ → ℚ
  draw : ℕ → List ℝ → ℕ

/-- `torch.zeros_like(x)`. -/
def zerosLike (x : List ℝ) : List ℝ := x.map (fun _ => 0)

/-- `x.log_softmax(0)[i]`. -/
noncomputable def logSoftmax (x : List ℝ) (i : ℕ) : ℝ :=
  x.getD i 0 - Real.log ((x.map Real.exp).sum)

/-- Lines 102-109, the `sample` closure: flip the exploration coin, draw an
index from the uniform override or from the policy logits, and add
`x.log_softmax(0)[i].mul(w)` — always computed from the passed logits `x` —
to the accumulator.  Returns the index, the new accumulator, and the
advanced random-stream position. -/
noncomputable def sample (ctx : SampleCtx) (pos : ℕ) (x : List ℝ) (w acc : ℝ) :
    ℕ × ℝ × ℕ :=
  let i :=
    if ctx.rng pos < ctx.randmove then ctx.draw pos (zerosLike x) % x.length
    else ctx.draw pos x % x.length
  (i, acc + logSoftmax x i * w, pos + 1)

/-- Lines 95-130, one turn up to the reward bookkeeping: encode the state,
scale the policy logits by `beta`, sample the top-level action from
`x[:3]`, then per branch a position from `x[3:8]` (play / discard) or a
target from `x[8:13]` and an info value from `x[13:23]` (each weighted 0.5)
for the clue.  Returns the post-action game state, the action's
terminal-signal, the turn's accumulated log-probability `loss[0]`, and the
advanced random position. -/
noncomputable def runTurn {σ : Type} (g : GameApi σ) (policy : List ℝ → List ℝ)
    (beta : ℝ) (ctx : SampleCtx) (gs : σ) (pos : ℕ) : σ × Option Unit × ℝ × ℕ :=
  let x := (policy (g.encode gs)).map (fun v => beta * v)
  let a := sample ctx pos (x.take 3) 1 0
  if a.1 = 0 then
    let p := sample ctx a.2.2 ((x.drop 3).take 5) 1 a.2.1
    let o := g.play gs p.1
    (o.1, o.2, p.2.1, p.2.2)
  else if a.1 = 1 then
    let p := sample ctx a.2.2 ((x.drop 3).take 5) 1 a.2.1
    let o := g.discard gs p.1
    (o.1, o.2, p.2.1, p.2.2)
  else
    let tgt := sample ctx a.2.2 ((x.drop 8).take 5) 0.5 a.2.1
    let inf := sample ctx tgt.2.2 ((x.drop 13).take 10) 0.5 tgt.2.1
    let o :=
      if inf.1 < 5 then g.clue gs tgt.1 (ClueInfo.num inf.1)
      else g.clue gs tgt.1 (ClueInfo.color ("rgbyp".toList.getD (inf.1 - 5) 'r'))
    (o.1, o.2, inf.2.1, inf.2.2)

/-- How the inner `while True` loop ended: an action returned a non-null
terminal signal (line 133), or `game.gameover` became true (line 137). -/
inductive TermCause where
  | signal : TermCause
  | gameover : TermCause
deriving DecidableEq

/-- Lines 88-144: the episode loop.  Per turn: read `game.score`, run the
turn, append the turn's log-probability; on a terminal signal append reward
-1 and stop; on gameover append the score delta when the final score is 25
and -1 otherwise, and stop; otherwise append the score delta and continue.
`fuel` bounds the number of turns (the Python loop is unbounded); the
result carries the trajectory, the termination cause, the final game state
and random position. -/
noncomputable def rollout {σ : Type} (g : GameApi σ) (policy : List ℝ → List ℝ)
    (beta : ℝ) (ctx : SampleCtx) :
    ℕ → σ → ℕ → List ℝ → List ℤ → Option (List ℝ × List ℤ × TermCause × σ × ℕ)
  | 0, _, _, _, _ => none
  | fuel + 1, gs, pos, logProbs, rewards =>
    let score := g.score gs
    let t := runTurn g policy beta ctx gs pos
    if t.2.1.isSome then
      some (logProbs ++ [t.2.2.1], rewards ++ [(-1 : ℤ)], TermCause.signal, t.1, t.2.2.2)
    else if g.gameover t.1 then
      if g.score t.1 = 25 then
        some (logProbs ++ [t.2.2.1], rewards ++ [g.score t.1 - score],
          TermCause.gameover, t.1, t.2.2.2)
      else
        some (logProbs ++ [t.2.2.1], rewards ++ [(-1 : ℤ)], TermCause.gameover, t.1, t.2.2.2)
    else
      rollout g policy beta ctx fuel t.1 t.2.2.2 (logProbs ++ [t.2.2.1])
        (rewards ++ [g.score t.1 - score])

/-- A scripted game collaborator: the state counts actions taken, each
action advances it by one and the 5th action returns a terminal signal;
the score is 5 per action taken (so 25 once the 5th has run), and
`gameover` never fires. -/
def scriptSignal : GameApi ℕ :=
  { encode := fun _ => List.replicate 23 0,
    play := fun s _ => (s + 1, if s + 1 = 5 then some () else none),
    discard := fun s _ => (s + 1, if s + 1 = 5 then some () else none),
    clue := fun s _ _ => (s + 1, if s + 1 = 5 then some () else none),
    score := fun s => 5 * (s : ℤ),
    gameover := fun _ => false }

/-- Same scoring dynamics, but no action ever signals; instead `gameover`
fires once 5 actions have run, with final score 25. -/
def scriptGameover : GameApi ℕ :=
  { encode := fun _ => List.replicate 23 0,
    play := fun s _ => (s + 1, none),
    discard := fun s _ => (s + 1, none),
    clue := fun s _ _ => (s + 1, none),
    score := fun s => 5 * (s : ℤ),
    gameover := fun s => decide (5 ≤ s) }

/-- Deterministic random sources: the exploration override never fires and
every categorical draw returns index 0. -/
def ctxZero : SampleCtx := { randmove := 0, rng := fun _ => 1, draw := fun _ _ => 0 }

/-- An identity policy network stand-in for the scripted episodes. -/
def policyId : List ℝ → List ℝ := fun v => v

theorem rollout_pair_lengths {σ : Type} (g : GameApi σ) (policy : List ℝ → List ℝ)
    (beta : ℝ) (ctx : SampleCtx) :
    ∀ (fuel : ℕ) (gs : σ) (pos : ℕ) (lp : List ℝ) (rw : List ℤ)
      (res : List ℝ × List ℤ × TermCause × σ × ℕ),
    rollout g policy beta ctx fuel gs pos lp rw = some res →
    lp.length = rw.length → res.1.length = res.2.1.length := by
  intro fuel
  induction fuel with
  | zero =>
    intro gs pos lp rw res h hlen
    exact absurd h (by simp [rollout])
  | succ fuel ih =>
    intro gs pos lp rw res h hlen
    simp only [rollout] at h
    split at h
    · cases h
      simp [hlen]
    · split at h
      · split at h
        · cases h
          simp [hlen]
        · cases h
          simp [hlen]
      · exact ih _ _ _ _ _ h (by simp [hlen])

theorem rollout_signal_last {σ : Type} (g : GameApi σ) (policy : List ℝ → List ℝ)
    (beta : ℝ) (ctx : SampleCtx) :
    ∀ (fuel : ℕ) (gs : σ) (pos : ℕ) (lp : List ℝ) (rw : List ℤ)
      (res : List ℝ × List ℤ × TermCause × σ × ℕ),
    rollout g policy beta ctx fuel gs pos lp rw = some res →
    res.2.2.1 = TermCause.signal → res.2.1.getLast? = some (-1) := by
  intro fuel
  induction fuel with
  | zero =>
    intro gs pos lp rw res h _
    exact absurd h (by simp [rollout])
  | succ fuel ih =>
    intro gs pos lp rw res h hc
    simp only [rollout] at h
    split at h
    · cases h
      simp
    · split at h
      · split at h
        · cases h
          simp at hc
        · cases h
          simp at hc
      · exact ih _ _ _ _ _ h hc

theorem rollout_gameover_not25_last {σ : Type} (g : GameApi σ)
    (policy : List ℝ → List ℝ) (beta : ℝ) (ctx : SampleCtx) :
    ∀ (fuel : ℕ) (gs : σ) (pos : ℕ) (lp : List ℝ) (rw : List ℤ)
      (res : List ℝ × List ℤ × TermCause × σ × ℕ),
    rollout g policy beta ctx fuel gs pos lp rw = some res →
    res.2.2.1 = TermCause.gameover → g.score res.2.2.2.1 ≠ 25 →
    res.2.1.getLast? = some (-1) := by
  intro fuel
  induction fuel with
  | zero =>
    intro gs pos lp rw res h _ _
    exact absurd h (by simp [rollout])
  | succ fuel ih =>
    intro gs pos lp rw res h hc hsc
    simp only [rollout] at h
    split at h
    · cases h
      simp at hc
    · split at h
      · split at h
        · cases h
          exact absurd (by assumption) hsc
        · cases h
          simp
      · exact ih _ _ _ _ _ h hc hsc

theorem rollout_step_continue {σ : Type} (g : GameApi σ) (policy : List ℝ → List ℝ)
    (beta : ℝ) (ctx : SampleCtx) (fuel : ℕ) (gs : σ) (pos : ℕ) (lp : List ℝ)
    (rw : List ℤ) (h1 : (runTurn g policy beta ctx gs pos).2.1 = none)
    (h2 : g.gameover (runTurn g policy beta ctx gs pos).1 = false) :
    rollout g policy beta ctx (fuel + 1) gs pos lp rw =
      rollout g policy beta ctx fuel (runTurn g policy beta ctx gs pos).1
        (runTurn g policy beta ctx gs pos).2.2.2
        (lp ++ [(runTurn g policy beta ctx gs pos).2.2.1])
        (rw ++ [g.score (runTurn g policy beta ctx gs pos).1 - g.score gs]) := by
  simp only [rollout]
  rw [h1]
  simp [h2]

theorem rollout_step_gameover25 {σ : Type} (g : GameApi σ) (policy : List ℝ → List ℝ)
    (beta : ℝ) (ctx : SampleCtx) (fuel : ℕ) (gs : σ) (pos : ℕ) (lp : List ℝ)
    (rw : List ℤ) (h1 : (runTurn g policy beta ctx gs pos).2.1 = none)
    (h2 : g.gameover (runTurn g policy beta ctx gs pos).1 = true)
    (h3 : g.score (runTurn g policy beta ctx gs pos).1 = 25) :
    rollout g policy beta ctx (fuel + 1) gs pos lp rw =
      some (lp ++ [(runTurn g policy beta ctx gs pos).2.2.1],
        rw ++ [g.score (runTurn g policy beta ctx gs pos).1 - g.score gs],
        TermCause.gameover, (runTurn g policy beta ctx gs pos).1,
        (runTurn g policy beta ctx gs pos).2.2.2) := by
  simp only [rollout]
  rw [h1]
  simp [h2, h3]

/-- Counterexample to C3: in `scriptSignal` the 5th action returns a
terminal signal while the final score is 25 and the score delta since the
previous turn is 5 — yet the rollout (lines 133-135) records final reward
-1 unconditionally, not the score delta the claim demands for a perfect
final score in the terminal-signal case. -/
theorem terminal_signal_reward_counterexample :
    ((rollout scriptSignal policyId 1 ctxZero 10 0 0 [] []).map
      (fun r => (r.2.1, r.2.2.1, r.2.2.2.1)) =
      some ([5, 5, 5, 5, -1], TermCause.signal, 5)) ∧
    scriptSignal.score 5 = 25 ∧
    ([(5:ℤ), 5, 5, 5, -1].getLast? = some (-1)) ∧
    (-1 : ℤ) ≠ scriptSignal.score 5 - scriptSignal.score 4 := by
  exact ⟨rfl, rfl, rfl, by decide⟩

/-- C3 amended: every recorded turn contributes one (log-probability,
reward) pair; when the episode ends by a terminal signal the final reward
is -1 unconditionally (no 25-score exception — that rule lives only in the
`gameover` branch); when it ends by `gameover` with final score other than
25 the final reward is -1; every non-terminal turn (no signal, no
gameover) records exactly the score delta since the previous turn as its
reward; every turn ending by `gameover` at score 25 records the score
delta as the final reward — all of these for every collaborator, policy
and random source.  Concretely, a scripted collaborator whose 5th action
signals termination yields exactly 5 pairs with rewards `[5, 5, 5, 5, -1]`
(per-turn score deltas then the penalty), while one whose game ends by
`gameover` at score 25 after 5 actions yields rewards `[5, 5, 5, 5, 5]`. -/
theorem episode_termination_and_rewards {σ : Type} (g : GameApi σ)
    (policy : List ℝ → List ℝ) (beta : ℝ) (ctx : SampleCtx) (fuel : ℕ) (gs : σ)
    (pos : ℕ) (res : List ℝ × List ℤ × TermCause × σ × ℕ)
    (h : rollout g policy beta ctx fuel gs pos [] [] = some res) :
    res.1.length = res.2.1.length ∧
    (res.2.2.1 = TermCause.signal → res.2.1.getLast? = some (-1)) ∧
    (res.2.2.1 = TermCause.gameover → g.score res.2.2.2.1 ≠ 25 →
      res.2.1.getLast? = some (-1)) ∧
    (∀ (fl : ℕ) (s : σ) (p : ℕ) (lp : List ℝ) (rw : List ℤ),
      (runTurn g policy beta ctx s p).2.1 = none →
      g.gameover (runTurn g policy beta ctx s p).1 = false →
      rollout g policy beta ctx (fl + 1) s p lp rw =
        rollout g policy beta ctx fl (runTurn g policy beta ctx s p).1
          (runTurn g policy beta ctx s p).2.2.2
          (lp ++ [(runTurn g policy beta ctx s p).2.2.1])
          (rw ++ [g.score (runTurn g policy beta ctx s p).1 - g.score s])) ∧
    (∀ (fl : ℕ) (s : σ) (p : ℕ) (lp : List ℝ) (rw : List ℤ),
      (runTurn g policy beta ctx s p).2.1 = none →
      g.gameover (runTurn g policy beta ctx s p).1 = true →
      g.score (runTurn g policy beta ctx s p).1 = 25 →
      rollout g policy beta ctx (fl + 1) s p lp rw =
        some (lp ++ [(runTurn g policy beta ctx s p).2.2.1],
          rw ++ [g.score (runTurn g policy beta ctx s p).1 - g.score s],
          TermCause.gameover, (runTurn g policy beta ctx s p).1,
          (runTurn g policy beta ctx s p).2.2.2)) ∧
    ((rollout scriptSignal policyId 1 ctxZero 10 0 0 [] []).map
      (fun r => (r.1.length, r.2.1, r.2.2.1)) =
      some (5, [5, 5, 5, 5, -1], TermCause.signal)) ∧
    ((rollout scriptGameover policyId 1 ctxZero 10 0 0 [] []).map
      (fun r => (r.1.length, r.2.1, r.2.2.1)) =
      some (5, [5, 5, 5, 5, 5], TermCause.gameover)) :=
  ⟨rollout_pair_lengths g policy beta ctx fuel gs pos [] [] res h rfl,
   rollout_signal_last g policy beta ctx fuel gs pos [] [] res h,
   rollout_gameover_not25_last g policy beta ctx fuel gs pos [] [] res h,
   fun fl s p lp rw h1 h2 => rollout_step_continue g policy beta ctx fl s p lp rw h1 h2,
   fun fl s p lp rw h1 h2 h3 =>
     rollout_step_gameover25 g policy beta ctx fl s p lp rw h1 h2 h3,
   rfl, rfl⟩

/-- Witness for C3 (amended) on the gameover-at-25 script: the main
hypothesis holds by evaluation, the non-terminal step conjunct is
instantiated at the first turn (state 0) and the gameover-25 step conjunct
at the fifth turn (state 4), discharging their hypotheses by evaluation. -/
theorem episode_termination_and_rewards_witness :
    (rollout scriptGameover policyId 1 ctxZero 10 0 0 [] [] =
      some ((rollout scriptGameover policyId 1 ctxZero 10 0 0 [] []).getD
        ⟨[], [], TermCause.signal, 0, 0⟩)) ∧
    (((rollout scriptGameover policyId 1 ctxZero 10 0 0 [] []).getD
        ⟨[], [], TermCause.signal, 0, 0⟩).1.length =
      ((rollout scriptGameover policyId 1 ctxZero 10 0 0 [] []).getD
        ⟨[], [], TermCause.signal, 0, 0⟩).2.1.length) ∧
    (((rollout scriptGameover policyId 1 ctxZero 10 0 0 [] []).getD
        ⟨[], [], TermCause.signal, 0, 0⟩).2.2.1 = TermCause.signal →
      ((rollout scriptGameover policyId 1 ctxZero 10 0 0 [] []).getD
        ⟨[], [], TermCause.signal, 0, 0⟩).2.1.getLast? = some (-1)) ∧
    ((runTurn scriptGameover policyId 1 ctxZero 0 0).2.1 = none) ∧
    (scriptGameover.gameover (runTurn scriptGameover policyId 1 ctxZero 0 0).1 = false) ∧
    (rollout scriptGameover policyId 1 ctxZero (9 + 1) 0 0 [] [] =
      rollout scriptGameover policyId 1 ctxZero 9
        (runTurn scriptGameover policyId 1 ctxZero 0 0).1
        (runTurn scriptGameover policyId 1 ctxZero 0 0).2.2.2
        ([] ++ [(runTurn scriptGameover policyId 1 ctxZero 0 0).2.2.1])
        ([] ++ [scriptGameover.score (runTurn scriptGameover policyId 1 ctxZero 0 0).1 -
          scriptGameover.score 0])) ∧
    ((runTurn scriptGameover policyId 1 ctxZero 4 0).2.1 = none) ∧
    (scriptGameover.gameover (runTurn scriptGameover policyId 1 ctxZero 4 0).1 = true) ∧
    (scriptGameover.score (runTurn scriptGameover policyId 1 ctxZero 4 0).1 = 25) ∧
    (rollout scriptGameover policyId 1 ctxZero (0 + 1) 4 0 [] [] =
      some ([] ++ [(runTurn scriptGameover policyId 1 ctxZero 4 0).2.2.1],
        [] ++ [scriptGameover.score (runTurn scriptGameover policyId 1 ctxZero 4 0).1 -
          scriptGameover.score 4],
        TermCause.gameover, (runTurn scriptGameover policyId 1 ctxZero 4 0).1,
        (runTurn scriptGameover policyId 1 ctxZero 4 0).2.2.2)) ∧
    ((rollout scriptSignal policyId 1 ctxZero 10 0 0 [] []).map
      (fun r => (r.1.length, r.2.1, r.2.2.1)) =
      some (5, [5, 5, 5, 5, -1], TermCause.signal)) ∧
    ((rollout scriptGameover policyId 1 ctxZero 10 0 0 [] []).map
      (fun r => (r.1.length, r.2.1, r.2.2.1)) =
      some (5, [5, 5, 5, 5, 5], TermCause.gameover)) := by
  have H := episode_termination_and_rewards scriptGameover policyId 1 ctxZero 10 0 0 _ rfl
  exact ⟨rfl, H.1, H.2.1, rfl, rfl, H.2.2.2.1 9 0 0 [] [] rfl rfl, rfl, rfl, rfl,
    H.2.2.2.2.1 0 4 0 [] [] rfl rfl rfl, H.2.2.2.2.2.1, H.2.2.2.2.2.2⟩

/-- Deterministic random sources whose exploration override always fires:
`torch.rand` returns 0 and `args.randmove` is 1. -/
def ctxOverride : SampleCtx := { randmove := 1, rng := fun _ => 0, draw := fun _ _ => 0 }

/-- C10: whatever the exploration coin decides — sampling from the policy
categorical or from the uniform override — the term added to the episode's
log-probability accumulator is `log_softmax(x)[i].mul(w)` computed from the
passed (beta-scaled) logit slice `x` at the sampled index `i`; each
`sample` call flips its own coin, advancing the random stream by exactly
one, so a give-information turn (two calls) consumes two coins — a turn
advances the stream by 2 or 3 positions, one per sample call. -/
theorem sampler_logprob_and_coin_per_call {σ : Type} (g : GameApi σ)
    (policy : List ℝ → List ℝ) (beta : ℝ) (ctx : SampleCtx) (gs : σ)
    (pos : ℕ) (x : List ℝ) (w acc : ℝ) :
    ((sample ctx pos x w acc).2.1 =
      acc + logSoftmax x (sample ctx pos x w acc).1 * w) ∧
    ((sample ctx pos x w acc).2.2 = pos + 1) ∧
    (ctx.rng pos < ctx.randmove →
      (sample ctx pos x w acc).1 = ctx.draw pos (zerosLike x) % x.length) ∧
    (¬ ctx.rng pos < ctx.randmove →
      (sample ctx pos x w acc).1 = ctx.draw pos x % x.length) ∧
    ((runTurn g policy beta ctx gs pos).2.2.2 = pos + 2 ∨
      (runTurn g policy beta ctx gs pos).2.2.2 = pos + 3) := by
  refine ⟨rfl, rfl, ?_, ?_, ?_⟩
  · intro h
    simp only [sample]
    rw [if_pos h]
  · intro h
    simp only [sample]
    rw [if_neg h]
  · simp only [runTurn]
    split
    · left
      rfl
    · split
      · left
        rfl
      · right
        rfl

/-- Witness for C10 with the override branch taken: `randmove = 1` and a
zero coin, on the 3-logit slice. -/
theorem sampler_logprob_and_coin_per_call_witness :
    ((sample ctxOverride 0 [0, 0, 0] 1 0).2.1 =
      0 + logSoftmax [0, 0, 0] (sample ctxOverride 0 [0, 0, 0] 1 0).1 * 1) ∧
    ((sample ctxOverride 0 [0, 0, 0] 1 0).2.2 = 0 + 1) ∧
    (sample ctxOverride 0 [0, 0, 0] 1 0).1 =
      ctxOverride.draw 0 (zerosLike [0, 0, 0]) % ([(0:ℝ), 0, 0]).length ∧
    ((runTurn scriptSignal policyId 1 ctxOverride 0 0).2.2.2 = 0 + 2 ∨
      (runTurn scriptSignal policyId 1 ctxOverride 0 0).2.2.2 = 0 + 3) := by
  have h := sampler_logprob_and_coin_per_call scriptSignal policyId 1 ctxOverride 0 0
    [0, 0, 0] 1 0
  exact ⟨h.1, h.2.1, h.2.2.1 (by norm_num [ctxOverride]), h.2.2.2.2⟩

end Hanabi
